import Mathlib

/-!
# kubectl-port-forward-run: placeholder expansion and the lifecycle coordinator

A shallow embedding of `cmd/cmd.go`:

* `replacePort` (lines 137-142) together with the two library functions it
  calls, `strconv.Itoa` and `strings.ReplaceAll`;
* `rootCmd.RunE` (lines 40-130) as a function from the outcomes of its
  collaborators to its result and the ordered list of effects it performed.
-/

namespace PortForwardRun

/-! ## Strings -/

/-- A Go string. The placeholder and the decimal digits are single-byte ASCII
characters, so scanning by character and scanning by byte agree. -/
abbrev GoString := List Char

/-- The placeholder literal of `replacePort`, line 140: an opening brace
followed by a closing brace. -/
def token : GoString := ['\x7b', '\x7d']

/-- The byte `u + '0'` written by the digit loop of `strconv`. -/
def digitChar (d : Nat) : Char := Char.ofNat (48 + d)

/-- The digit loop of `strconv.formatBits` for base 10: while `u >= 10` the
digit `u % 10` is written in front of what is already there and `u` becomes
`u / 10`; the last digit is written after the loop. The first argument bounds
the number of iterations. -/
def formatBits : Nat → Nat → GoString → GoString
  | 0, _, a => a
  | fuel + 1, u, a =>
    if 10 ≤ u then formatBits fuel (u / 10) (digitChar (u % 10) :: a)
    else digitChar u :: a

/-- The function `strconv.Itoa`: a minus sign for a negative number, then the
decimal digits of the magnitude. A 64-bit magnitude has at most 20 digits. -/
def Itoa (i : Int) : GoString :=
  if i < 0 then '-' :: formatBits 20 i.natAbs [] else formatBits 20 i.toNat []

/-- The scan of `strings.ReplaceAll` for a non-empty `old`: going left to
right, where `old` starts at the current position `new` is written and
`len(old)` characters are skipped, elsewhere the current character is copied.
The counter is the number of characters of a match still to be skipped. -/
def replaceScan (old new : GoString) : Nat → GoString → GoString
  | _, [] => []
  | k + 1, _ :: cs => replaceScan old new k cs
  | 0, c :: cs =>
    if old.isPrefixOf (c :: cs) then new ++ replaceScan old new (old.length - 1) cs
    else c :: replaceScan old new 0 cs

/-- The function `strings.ReplaceAll s old new`. An empty `old` matches at the
start of the string and after every character. -/
def ReplaceAll (s old new : GoString) : GoString :=
  if old.isEmpty then new ++ s.flatMap (fun c => c :: new)
  else replaceScan old new 0 s

/-- The function `replacePort`, lines 137-142. The Go function overwrites the
slice it is given; the model returns the contents of the slice after the call.
The port is a `uint16`. -/
def replacePort (s : List GoString) (port : Nat) : List GoString :=
  let p := Itoa (Int.ofNat port)
  s.map (fun v => ReplaceAll v token p)

/-! ## What the specification says about expansion -/

/-- The text `v` contains the placeholder. -/
def HasToken (v : GoString) : Prop := token <:+: v

/-- The specification of expansion for one element: `v` is cut at the
occurrences of the placeholder into pieces that contain none, and `out` is the
same pieces, in the same order, with `p` where each placeholder stood. -/
def IsExpansion (p v out : GoString) : Prop :=
  ∃ ws : List GoString, (∀ w ∈ ws, ¬ HasToken w) ∧
    v = List.intercalate token ws ∧ out = List.intercalate p ws

/-- The number a digit string denotes, read left to right in base 10. -/
def decimalValue (t : GoString) : Nat :=
  t.foldl (fun a c => 10 * a + (c.toNat - 48)) 0

/-- The text `t` is the decimal text of `n`: digits only (so no sign), at
least one digit, no leading zero except for the number zero itself. -/
def IsDecimalOf (t : GoString) (n : Nat) : Prop :=
  t ≠ [] ∧ (∀ c ∈ t, c.isDigit = true) ∧ (t.head? = some (Char.ofNat 48) → t = [Char.ofNat 48]) ∧
    decimalValue t = n

/-- Every character of the text is a decimal digit. -/
def AllDigits (p : GoString) : Prop := ∀ c ∈ p, c.isDigit = true

/-! ## The coordinator `rootCmd.RunE` -/

/-- An error value, as far as `RunE` tells errors apart: one a collaborator
returned, carrying its `Error()` text, or one built by `cmdutil.UsageErrorf`
from a format string. -/
inductive GoError where
  | collaborator (msg : GoString)
  | usageError (format : GoString)
  deriving DecidableEq

/-- The method `err.Error()`, up to the help line `UsageErrorf` appends. -/
def GoError.Error : GoError → GoString
  | .collaborator msg => msg
  | .usageError format => format

/-- The call `cmdutil.UsageErrorf(cmd, err.Error())`. -/
def UsageErrorf (err : GoError) : GoError := .usageError err.Error

/-- A run-time panic. -/
inductive GoPanic where
  | indexOutOfRange
  | closeOfClosedChannel
  deriving DecidableEq

/-- The state of a channel made by `make(chan struct{})`. -/
inductive ChanState where
  | unclosed
  | closed
  deriving DecidableEq

/-- The builtin `close`: it closes a channel that is not closed and panics on
one that is. -/
def closeChan : ChanState → Except GoPanic ChanState
  | .unclosed => .ok .closed
  | .closed => .error .closeOfClosedChannel

/-- The case of the `select` of lines 122-129 that is taken. -/
inductive SelectCase where
  | signals
  | cmdRes
  deriving DecidableEq

/-- The outcomes of everything `RunE` calls, in the order of the calls. An
error is `some err`, success is `none` or the value delivered. -/
structure Collaborators where
  /-- The flag `*configFlags.Namespace`, line 46. -/
  namespaceFlag : GoString
  /-- The call `configFlags.ToRawKubeConfigLoader().Namespace()`, line 48. -/
  defaultNamespace : Except GoError GoString
  /-- The error of the builder chain ending in `Object()`, lines 55-61. -/
  object : Option GoError
  /-- The error of `cmdutil.GetPodRunningTimeoutFlag`, line 65. -/
  podRunningTimeout : Option GoError
  /-- The error of `polymorphichelpers.AttachablePodForObjectFn`, line 69. -/
  attachablePod : Option GoError
  /-- The error of `configFlags.ToRESTConfig`, line 75. -/
  restConfig : Option GoError
  /-- The error of `rest.RESTClientFor`, line 80. -/
  restClient : Option GoError
  /-- The result of `pfd.ForwardPorts`, line 99: an error or `pf.LocalPort`. -/
  forwardPorts : Except GoError Nat
  /-- The error of `c.Start()`, line 110. -/
  start : Option GoError
  /-- The value `c.Wait()` delivers when the child process ends, line 115. -/
  wait : Option GoError
  /-- The case of the `select` that becomes ready first, `none` when neither
  an interrupt nor the end of the child process ever comes. -/
  selected : Option SelectCase

/-- The effects of `RunE` on its collaborators. -/
inductive Event where
  /-- The call `pfd.ForwardPorts` with `o.Address` and `o.Ports`, line 99. -/
  | forwardPorts (address ports : List GoString)
  /-- The call `c.Start()` of the command built at lines 105-106. -/
  | start (command : GoString) (commandArgs : List GoString)
  /-- The goroutine of lines 114-116, which sends `c.Wait()` on `cmdRes`. -/
  | goWait
  /-- The call `signal.Notify(signals, os.Interrupt)`, line 119. -/
  | signalNotify
  /-- The call `c.Stop()`, line 124. -/
  | commandStop
  /-- The statement `close(o.StopChannel)`, line 125. -/
  | closeStopChannel
  /-- The deferred `signal.Stop(signals)`, line 120. -/
  | signalStop
  deriving DecidableEq

/-- How a call of `RunE` ends. -/
inductive Outcome where
  | returned (err : Option GoError)
  | panicked (p : GoPanic)
  | blocked
  deriving DecidableEq

/-- What a call of `RunE` leaves behind: how it ended, its effects in order,
and the state of `o.StopChannel` (`none` when line 94 was not reached). -/
structure Result where
  outcome : Outcome
  trace : List Event
  stopChannel : Option ChanState
  deriving DecidableEq

/-- The function `rootCmd.RunE`, lines 40-130. -/
def RunE (env : Collaborators) (args : List GoString) : Result :=
  match args with
  | _resourceRef :: port :: command :: commandArgs =>
    match (if env.namespaceFlag.isEmpty then env.defaultNamespace else .ok env.namespaceFlag) with
    | .error err => ⟨.returned (some (UsageErrorf err)), [], none⟩
    | .ok _ =>
    match env.object with
    | some err => ⟨.returned (some (UsageErrorf err)), [], none⟩
    | none =>
    match env.podRunningTimeout with
    | some err => ⟨.returned (some (UsageErrorf err)), [], none⟩
    | none =>
    match env.attachablePod with
    | some err => ⟨.returned (some (UsageErrorf err)), [], none⟩
    | none =>
    match env.restConfig with
    | some err => ⟨.returned (some (UsageErrorf err)), [], none⟩
    | none =>
    match env.restClient with
    | some err => ⟨.returned (some (UsageErrorf err)), [], none⟩
    | none =>
    let stopChannel := ChanState.unclosed
    let t1 := [Event.forwardPorts ["localhost".toList] [':' :: port]]
    match env.forwardPorts with
    | .error err => ⟨.returned (some (UsageErrorf err)), t1, some stopChannel⟩
    | .ok localPort =>
    let commandArgs := replacePort commandArgs localPort
    let t2 := t1 ++ [Event.start command commandArgs]
    match env.start with
    | some err => ⟨.returned (some (UsageErrorf err)), t2, some stopChannel⟩
    | none =>
    let t3 := t2 ++ [Event.goWait, Event.signalNotify]
    match env.selected with
    | none => ⟨.blocked, t3, some stopChannel⟩
    | some .signals =>
      match closeChan stopChannel with
      | .ok st =>
        ⟨.returned none, t3 ++ [Event.commandStop, Event.closeStopChannel, Event.signalStop], some st⟩
      | .error p =>
        ⟨.panicked p, t3 ++ [Event.commandStop, Event.closeStopChannel, Event.signalStop],
          some stopChannel⟩
    | some .cmdRes => ⟨.returned env.wait, t3 ++ [Event.signalStop], some stopChannel⟩
  | _ => ⟨.panicked .indexOutOfRange, [], none⟩

/-- Every call before `ForwardPorts` succeeds, so that line 90 is reached. -/
def Collaborators.resolved (env : Collaborators) : Bool :=
  (!env.namespaceFlag.isEmpty || env.defaultNamespace.isOk) && env.object.isNone &&
    env.podRunningTimeout.isNone && env.attachablePod.isNone && env.restConfig.isNone &&
    env.restClient.isNone

/-- The number of times `close(o.StopChannel)` was executed. -/
def stopCalls (t : List Event) : Nat := t.count Event.closeStopChannel

/-- The commands `c.Start()` was called on, each with its argument list. -/
def startCalls (t : List Event) : List (GoString × List GoString) :=
  t.filterMap (fun e => match e with
    | .start command commandArgs => some (command, commandArgs)
    | _ => none)

/-- A run in which every collaborator succeeds, the tunnel is given local port
`localPort`, the child process ends with `wait` and `selected` is the case of
the `select` that is taken. -/
def happyRun (localPort : Nat) (wait : Option GoError) (selected : Option SelectCase) :
    Collaborators :=
  { namespaceFlag := "default".toList, defaultNamespace := .ok "default".toList, object := none,
    podRunningTimeout := none, attachablePod := none, restConfig := none, restClient := none,
    forwardPorts := .ok localPort, start := none, wait := wait, selected := selected }

/-! ## Lemmas on the scan -/

theorem token_prefix_cons_iff (c : Char) (cs : GoString) :
    token <+: c :: cs ↔ c = '\x7b' ∧ cs.head? = some '\x7d' := by
  unfold token
  rw [List.cons_prefix_cons]
  cases cs with
  | nil => simp
  | cons d ds =>
    rw [List.cons_prefix_cons]
    simp [eq_comm]

theorem hasToken_cons_iff (c : Char) (cs : GoString) :
    HasToken (c :: cs) ↔ (c = '\x7b' ∧ cs.head? = some '\x7d') ∨ HasToken cs := by
  unfold HasToken
  rw [List.infix_cons_iff, token_prefix_cons_iff]

theorem not_hasToken_nil : ¬ HasToken [] := by
  unfold HasToken token
  simp

theorem replaceScan_match (p rest : GoString) :
    replaceScan token p 0 ('\x7b' :: '\x7d' :: rest) = p ++ replaceScan token p 0 rest := by
  simp [replaceScan, token]

theorem replaceScan_copy (p : GoString) (c : Char) (cs : GoString)
    (h : ¬ (c = '\x7b' ∧ cs.head? = some '\x7d')) :
    replaceScan token p 0 (c :: cs) = c :: replaceScan token p 0 cs := by
  have h1 : List.isPrefixOf token (c :: cs) = false := by
    rw [Bool.eq_false_iff]
    intro hp
    exact h ((token_prefix_cons_iff c cs).1 (List.isPrefixOf_iff_prefix.1 hp))
  simp only [replaceScan, h1]
  simp

/-- Induction along the scan: a match consumes two characters, anything else
consumes one. -/
theorem scan_induction {P : GoString → Prop} (hnil : P [])
    (hmatch : ∀ rest, P rest → P ('\x7b' :: '\x7d' :: rest))
    (hcopy : ∀ c cs, ¬ (c = '\x7b' ∧ cs.head? = some '\x7d') → P cs → P (c :: cs)) :
    ∀ v, P v := by
  suffices h : ∀ n (v : GoString), v.length ≤ n → P v from fun v => h v.length v le_rfl
  intro n
  induction n with
  | zero =>
    intro v hv
    have : v = [] := List.length_eq_zero.1 (Nat.le_zero.1 hv)
    subst this
    exact hnil
  | succ n ih =>
    intro v hv
    cases v with
    | nil => exact hnil
    | cons c cs =>
      have hcs : cs.length ≤ n := by simpa using hv
      by_cases hm : c = '\x7b' ∧ cs.head? = some '\x7d'
      · obtain ⟨rfl, hh⟩ := hm
        cases cs with
        | nil => simp at hh
        | cons d ds =>
          simp only [List.head?_cons, Option.some.injEq] at hh
          subst hh
          have hds : ds.length ≤ n := by
            simp only [List.length_cons] at hcs
            omega
          exact hmatch ds (ih ds hds)
      · exact hcopy c cs hm (ih cs hcs)

theorem replaceScan_of_not_hasToken (p : GoString) :
    ∀ v : GoString, ¬ HasToken v → replaceScan token p 0 v = v := by
  intro v
  induction v with
  | nil => intro _; rfl
  | cons c cs ih =>
    intro h
    rw [hasToken_cons_iff, not_or] at h
    rw [replaceScan_copy p c cs h.1, ih h.2]

theorem replaceScan_append_token (p x : GoString) :
    ∀ w : GoString, ¬ HasToken w →
      replaceScan token p 0 (w ++ token ++ x) = w ++ p ++ replaceScan token p 0 x := by
  intro w
  induction w with
  | nil =>
    intro _
    simpa [token] using replaceScan_match p x
  | cons c cs ih =>
    intro h
    rw [hasToken_cons_iff, not_or] at h
    have hc : ¬ (c = '\x7b' ∧ (cs ++ token ++ x).head? = some '\x7d') := by
      rintro ⟨hc1, hc2⟩
      cases cs with
      | nil => simp [token] at hc2
      | cons d ds => exact h.1 ⟨hc1, by simpa using hc2⟩
    have e : c :: cs ++ token ++ x = c :: (cs ++ token ++ x) := by simp
    rw [e, replaceScan_copy p c _ hc, ih h.2]
    simp

theorem isDigit_ne_braces (c : Char) (h : c.isDigit = true) : c ≠ '\x7b' ∧ c ≠ '\x7d' := by
  constructor <;> rintro rfl <;> exact absurd h (by decide)

theorem hasToken_digits_append (x : GoString) :
    ∀ p : GoString, AllDigits p → (HasToken (p ++ x) ↔ HasToken x) := by
  intro p
  induction p with
  | nil => intro _; simp
  | cons d ds ih =>
    intro hp
    have hd : d.isDigit = true := hp d (List.mem_cons_self _ _)
    have hds : AllDigits ds := fun c hc => hp c (List.mem_cons_of_mem _ hc)
    rw [List.cons_append, hasToken_cons_iff, ih hds]
    constructor
    · rintro (⟨h1, _⟩ | h)
      · exact absurd h1 (isDigit_ne_braces d hd).1
      · exact h
    · exact Or.inr

theorem head_replaceScan_closing (p : GoString) (hp : AllDigits p) (hne : p ≠ []) :
    ∀ v : GoString, (replaceScan token p 0 v).head? = some '\x7d' → v.head? = some '\x7d' := by
  intro v
  cases v with
  | nil => simp [replaceScan]
  | cons c cs =>
    by_cases hm : c = '\x7b' ∧ cs.head? = some '\x7d'
    · obtain ⟨rfl, hh⟩ := hm
      cases cs with
      | nil => simp at hh
      | cons d ds =>
        simp only [List.head?_cons, Option.some.injEq] at hh
        subst hh
        rw [replaceScan_match]
        cases p with
        | nil => exact absurd rfl hne
        | cons q qs =>
          intro h
          simp only [List.cons_append, List.head?_cons, Option.some.injEq] at h
          exact absurd h (isDigit_ne_braces q (hp q (List.mem_cons_self _ _))).2
    · rw [replaceScan_copy p c cs hm]
      simp

theorem not_hasToken_replaceScan (p : GoString) (hp : AllDigits p) (hne : p ≠ []) :
    ∀ v : GoString, ¬ HasToken (replaceScan token p 0 v) := by
  apply scan_induction
  · simpa [replaceScan] using not_hasToken_nil
  · intro rest ih
    rw [replaceScan_match, hasToken_digits_append _ p hp]
    exact ih
  · intro c cs hm ih
    rw [replaceScan_copy p c cs hm, hasToken_cons_iff, not_or]
    refine ⟨?_, ih⟩
    rintro ⟨h1, h2⟩
    exact hm ⟨h1, head_replaceScan_closing p hp hne cs h2⟩

theorem intercalate_cons_cons (sep w w2 : GoString) (ws : List GoString) :
    List.intercalate sep (w :: w2 :: ws) = w ++ sep ++ List.intercalate sep (w2 :: ws) := by
  simp [List.intercalate, List.intersperse]

theorem intercalate_single (sep w : GoString) : List.intercalate sep [w] = w := by
  simp [List.intercalate, List.intersperse]

theorem replaceScan_intercalate (p : GoString) :
    ∀ ws : List GoString, (∀ w ∈ ws, ¬ HasToken w) →
      replaceScan token p 0 (List.intercalate token ws) = List.intercalate p ws := by
  intro ws
  induction ws with
  | nil => intro _; simp [List.intercalate, replaceScan]
  | cons w ws ih =>
    intro h
    cases ws with
    | nil =>
      rw [intercalate_single, intercalate_single]
      exact replaceScan_of_not_hasToken p w (h w (List.mem_cons_self _ _))
    | cons w2 rest =>
      rw [intercalate_cons_cons, intercalate_cons_cons,
        replaceScan_append_token p _ w (h w (List.mem_cons_self _ _)),
        ih (fun u hu => h u (List.mem_cons_of_mem _ hu))]

theorem exists_pieces (p : GoString) :
    ∀ v : GoString, ∃ w : GoString, ∃ ws : List GoString, (∀ u ∈ w :: ws, ¬ HasToken u) ∧
      v = List.intercalate token (w :: ws) ∧
      replaceScan token p 0 v = List.intercalate p (w :: ws) := by
  apply scan_induction
  · exact ⟨[], [], by simpa using not_hasToken_nil, by simp [intercalate_single],
      by simp [intercalate_single, replaceScan]⟩
  · rintro rest ⟨w, ws, hfree, hv, hout⟩
    refine ⟨[], w :: ws, ?_, ?_, ?_⟩
    · intro u hu
      rcases List.mem_cons.1 hu with rfl | hu
      · exact not_hasToken_nil
      · exact hfree u hu
    · rw [intercalate_cons_cons, ← hv]
      simp [token]
    · rw [intercalate_cons_cons, ← hout, replaceScan_match]
      simp
  · rintro c cs hm ⟨w, ws, hfree, hv, hout⟩
    have hw : ¬ HasToken (c :: w) := by
      rw [hasToken_cons_iff, not_or]
      refine ⟨?_, hfree w (List.mem_cons_self _ _)⟩
      rintro ⟨h1, h2⟩
      apply hm
      refine ⟨h1, ?_⟩
      cases w with
      | nil => simp at h2
      | cons d ds =>
        simp only [List.head?_cons, Option.some.injEq] at h2
        subst h2
        rw [hv]
        cases ws with
        | nil => simp [intercalate_single]
        | cons w2 rest => simp [intercalate_cons_cons]
    refine ⟨c :: w, ws, ?_, ?_, ?_⟩
    · intro u hu
      rcases List.mem_cons.1 hu with rfl | hu
      · exact hw
      · exact hfree u (List.mem_cons_of_mem _ hu)
    · cases ws with
      | nil => simpa [intercalate_single] using hv
      | cons w2 rest => simpa [intercalate_cons_cons] using hv
    · rw [replaceScan_copy p c cs hm, hout]
      cases ws with
      | nil => simp [intercalate_single]
      | cons w2 rest => simp [intercalate_cons_cons]

/-- The relation of the specification holds of exactly one output, the one the
scan computes. -/
theorem isExpansion_iff (p v out : GoString) :
    IsExpansion p v out ↔ out = replaceScan token p 0 v := by
  constructor
  · rintro ⟨ws, hfree, rfl, rfl⟩
    exact (replaceScan_intercalate p ws hfree).symm
  · rintro rfl
    obtain ⟨w, ws, hfree, hv, hout⟩ := exists_pieces p v
    exact ⟨w :: ws, hfree, hv, hout⟩

theorem ReplaceAll_token (v p : GoString) : ReplaceAll v token p = replaceScan token p 0 v := by
  simp [ReplaceAll, token]

/-! ## Lemmas on the decimal text -/

theorem digitChar_isDigit : ∀ d, d < 10 → (digitChar d).isDigit = true := by decide

theorem digitChar_value : ∀ d, d < 10 → (digitChar d).toNat - 48 = d := by decide

theorem formatBits_spec :
    ∀ fuel u (a : GoString), u < 10 ^ (fuel + 1) →
      ∃ ds : GoString, formatBits (fuel + 1) u a = ds ++ a ∧ IsDecimalOf ds u := by
  intro fuel
  induction fuel with
  | zero =>
    intro u a hu
    have hu10 : u < 10 := by simpa using hu
    refine ⟨[digitChar u], ?_, ?_, ?_, ?_, ?_⟩
    · simp [formatBits, Nat.not_le.2 hu10]
    · simp
    · intro c hc
      rw [List.mem_singleton.1 hc]
      exact digitChar_isDigit u hu10
    · intro h
      simp only [List.head?_cons, Option.some.injEq] at h
      rw [h]
    · simp [decimalValue, digitChar_value u hu10]
  | succ n ih =>
    intro u a hu
    by_cases h10 : 10 ≤ u
    · have hq : u / 10 < 10 ^ (n + 1) := by
        rw [Nat.div_lt_iff_lt_mul (by norm_num)]
        calc u < 10 ^ (n + 1 + 1) := hu
          _ = 10 ^ (n + 1) * 10 := by ring
      have hr : u % 10 < 10 := Nat.mod_lt _ (by norm_num)
      obtain ⟨ds, hds, hne, hdig, hhead, hval⟩ := ih (u / 10) (digitChar (u % 10) :: a) hq
      refine ⟨ds ++ [digitChar (u % 10)], ?_, ?_, ?_, ?_, ?_⟩
      · rw [formatBits, if_pos h10, hds]
        simp
      · simp
      · intro c hc
        rcases List.mem_append.1 hc with hc | hc
        · exact hdig c hc
        · rw [List.mem_singleton.1 hc]
          exact digitChar_isDigit _ hr
      · intro h
        exfalso
        have h2 : ds.head? = some (Char.ofNat 48) := by
          cases ds with
          | nil => exact absurd rfl hne
          | cons d ds2 => simpa using h
        have h3 := hhead h2
        rw [h3] at hval
        have h4 : u / 10 = 0 := by
          rw [← hval]
          decide
        have h5 : 1 ≤ u / 10 := (Nat.one_le_div_iff (by norm_num)).2 h10
        omega
      · unfold decimalValue at hval ⊢
        rw [List.foldl_append, hval]
        simp only [List.foldl_cons, List.foldl_nil]
        rw [digitChar_value _ hr]
        omega
    · have hu10 : u < 10 := Nat.not_le.1 h10
      refine ⟨[digitChar u], ?_, ?_, ?_, ?_, ?_⟩
      · simp [formatBits, h10]
      · simp
      · intro c hc
        rw [List.mem_singleton.1 hc]
        exact digitChar_isDigit u hu10
      · intro h
        simp only [List.head?_cons, Option.some.injEq] at h
        rw [h]
      · simp [decimalValue, digitChar_value u hu10]

theorem Itoa_port (port : Nat) (h : port < 65536) : IsDecimalOf (Itoa (Int.ofNat port)) port := by
  have hu : port < 10 ^ (19 + 1) := by
    have : (65536 : Nat) < 10 ^ (19 + 1) := by norm_num
    omega
  obtain ⟨ds, hds, hdec⟩ := formatBits_spec 19 port [] hu
  have e : Itoa (Int.ofNat port) = ds := by
    unfold Itoa
    rw [if_neg (by simp)]
    simpa using hds
  rw [e]
  exact hdec

theorem Itoa_port_allDigits (port : Nat) (h : port < 65536) :
    AllDigits (Itoa (Int.ofNat port)) ∧ Itoa (Int.ofNat port) ≠ [] :=
  ⟨(Itoa_port port h).2.1, (Itoa_port port h).1⟩

/-! ## Lemmas on the paths of the coordinator -/

theorem namespace_ok_of_resolved (env : Collaborators) (h : env.resolved = true) :
    ∃ ns, (if env.namespaceFlag.isEmpty then env.defaultNamespace else .ok env.namespaceFlag)
      = Except.ok ns := by
  by_cases he : env.namespaceFlag.isEmpty = true
  · simp only [Collaborators.resolved, he, Bool.not_true, Bool.false_or, Bool.and_eq_true] at h
    rcases hd : env.defaultNamespace with e | ns
    · rw [hd] at h
      simp [Except.isOk, Except.toBool] at h
    · exact ⟨ns, by simp [he]⟩
  · exact ⟨env.namespaceFlag, by simp [he]⟩

theorem RunE_tunnel_failed (env : Collaborators) (ref port command : GoString)
    (rest : List GoString) (err : GoError) (h : env.resolved = true)
    (hf : env.forwardPorts = .error err) :
    RunE env (ref :: port :: command :: rest) =
      ⟨.returned (some (UsageErrorf err)),
        [Event.forwardPorts ["localhost".toList] [':' :: port]], some .unclosed⟩ := by
  obtain ⟨ns, hns⟩ := namespace_ok_of_resolved env h
  simp only [Collaborators.resolved, Bool.and_eq_true, Option.isNone_iff_eq_none] at h
  obtain ⟨⟨⟨⟨⟨_, h1⟩, h2⟩, h3⟩, h4⟩, h5⟩ := h
  simp only [RunE, hns, h1, h2, h3, h4, h5, hf]

theorem RunE_tunnel_ready (env : Collaborators) (ref port command : GoString)
    (rest : List GoString) (localPort : Nat) (h : env.resolved = true)
    (hf : env.forwardPorts = .ok localPort) :
    RunE env (ref :: port :: command :: rest) =
      match env.start with
      | some err =>
        ⟨.returned (some (UsageErrorf err)),
          [Event.forwardPorts ["localhost".toList] [':' :: port],
            Event.start command (replacePort rest localPort)], some .unclosed⟩
      | none =>
        match env.selected with
        | none =>
          ⟨.blocked, [Event.forwardPorts ["localhost".toList] [':' :: port],
            Event.start command (replacePort rest localPort), Event.goWait, Event.signalNotify],
            some .unclosed⟩
        | some .signals =>
          ⟨.returned none, [Event.forwardPorts ["localhost".toList] [':' :: port],
            Event.start command (replacePort rest localPort), Event.goWait, Event.signalNotify,
            Event.commandStop, Event.closeStopChannel, Event.signalStop], some .closed⟩
        | some .cmdRes =>
          ⟨.returned env.wait, [Event.forwardPorts ["localhost".toList] [':' :: port],
            Event.start command (replacePort rest localPort), Event.goWait, Event.signalNotify,
            Event.signalStop], some .unclosed⟩ := by
  obtain ⟨ns, hns⟩ := namespace_ok_of_resolved env h
  simp only [Collaborators.resolved, Bool.and_eq_true, Option.isNone_iff_eq_none] at h
  obtain ⟨⟨⟨⟨⟨_, h1⟩, h2⟩, h3⟩, h4⟩, h5⟩ := h
  simp only [RunE, hns, h1, h2, h3, h4, h5, hf]
  rcases env.start with _ | err
  · rcases env.selected with _ | c
    · rfl
    · cases c <;> simp [closeChan]
  · rfl

/-- On every path `close(o.StopChannel)` runs at most once, never on a closed
channel, and the channel is closed at the end exactly when it ran. -/
theorem RunE_stop_at_most_once (env : Collaborators) (args : List GoString) :
    stopCalls (RunE env args).trace ≤ 1 ∧
      (RunE env args).outcome ≠ .panicked .closeOfClosedChannel ∧
      ((RunE env args).stopChannel = some .closed ↔ stopCalls (RunE env args).trace = 1) := by
  unfold RunE
  repeat' split
  all_goals simp_all [stopCalls, closeChan]

theorem RunE_no_start_of_tunnel_error (env : Collaborators) (args : List GoString)
    (err : GoError) (hf : env.forwardPorts = .error err) :
    startCalls (RunE env args).trace = [] := by
  unfold RunE
  repeat' split
  all_goals simp_all [startCalls]

/-! ## The claims -/

/-- C1: for every argument sequence `s` and every port below 65536,
`replacePort` gives a sequence of the same length whose element `i` is `s[i]`
with every occurrence of the placeholder replaced by the decimal text of the
port and every other character kept in place; that text is made of digits
only, has no sign and no leading zero; and the example of the specification
comes out as given. -/
theorem C1_replacePort_expands (s : List GoString) (port : Nat) (h : port < 65536) :
    (replacePort s port).length = s.length ∧
    IsDecimalOf (Itoa (Int.ofNat port)) port ∧
    (∀ (i : Nat) (v : GoString), s[i]? = some v →
      ∃ out, (replacePort s port)[i]? = some out ∧
        IsExpansion (Itoa (Int.ofNat port)) v out) ∧
    replacePort ["-sS".toList, "http://localhost:\x7b\x7d/healthz".toList] 37541
      = ["-sS".toList, "http://localhost:37541/healthz".toList] := by
  refine ⟨by simp [replacePort], Itoa_port port h, ?_, by decide⟩
  intro i v hv
  refine ⟨ReplaceAll v token (Itoa (Int.ofNat port)), by simp [replacePort, hv], ?_⟩
  rw [isExpansion_iff, ReplaceAll_token]

/-- Witness of C1 at the example of the specification. -/
theorem C1_replacePort_expands_witness :
    37541 < 65536 ∧
    (replacePort ["-sS".toList, "http://localhost:\x7b\x7d/healthz".toList] 37541).length = 2 ∧
    IsDecimalOf (Itoa (Int.ofNat 37541)) 37541 :=
  ⟨by decide,
    (C1_replacePort_expands ["-sS".toList, "http://localhost:\x7b\x7d/healthz".toList] 37541
      (by decide)).1,
    (C1_replacePort_expands ["-sS".toList, "http://localhost:\x7b\x7d/healthz".toList] 37541
      (by decide)).2.1⟩

/-- C2, at the failing input: every collaborator succeeds, the tunnel gets
local port 37541 and the child process ends with success before any interrupt.
`RunE` returns that success, `close(o.StopChannel)` has run zero times and the
channel is still not closed. -/
theorem C2_completion_never_stops_tunnel :
    (RunE (happyRun 37541 none (some .cmdRes))
      ["pod/web".toList, "80".toList, "curl".toList, "localhost:\x7b\x7d".toList]).outcome
      = .returned none ∧
    stopCalls (RunE (happyRun 37541 none (some .cmdRes))
      ["pod/web".toList, "80".toList, "curl".toList, "localhost:\x7b\x7d".toList]).trace = 0 ∧
    (RunE (happyRun 37541 none (some .cmdRes))
      ["pod/web".toList, "80".toList, "curl".toList, "localhost:\x7b\x7d".toList]).stopChannel
      = some .unclosed := by
  decide

/-- C3, at the failing input: the tunnel is established with local port 37541
and `c.Start()` fails. `RunE` returns the usage error built from the spawn
error, `close(o.StopChannel)` has run zero times and the channel is still not
closed. -/
theorem C3_spawn_failure_never_stops_tunnel :
    (RunE { happyRun 37541 none none with start := some (.collaborator "not found".toList) }
      ["pod/web".toList, "80".toList, "no-such-command".toList]).outcome
      = .returned (some (.usageError "not found".toList)) ∧
    stopCalls (RunE { happyRun 37541 none none with start := some (.collaborator "not found".toList) }
      ["pod/web".toList, "80".toList, "no-such-command".toList]).trace = 0 ∧
    (RunE { happyRun 37541 none none with start := some (.collaborator "not found".toList) }
      ["pod/web".toList, "80".toList, "no-such-command".toList]).stopChannel
      = some .unclosed := by
  decide

/-- C4: when the tunnel is established, the child process is started and the
interrupt is received before the process ends, then for every outcome `wait`
the process may eventually have, `RunE` calls `c.Stop()` once, then closes
`o.StopChannel` once, and returns nil. -/
theorem C4_interrupt_stops_both_and_succeeds (env : Collaborators)
    (ref port command : GoString) (rest : List GoString) (localPort : Nat)
    (wait : Option GoError) (h : env.resolved = true) (hf : env.forwardPorts = .ok localPort)
    (hs : env.start = none) (hsel : env.selected = some .signals) :
    (RunE { env with wait := wait } (ref :: port :: command :: rest)).outcome = .returned none ∧
    (∃ before, (RunE { env with wait := wait } (ref :: port :: command :: rest)).trace
        = before ++ [Event.commandStop, Event.closeStopChannel, Event.signalStop] ∧
      Event.commandStop ∉ before ∧ Event.closeStopChannel ∉ before) ∧
    stopCalls (RunE { env with wait := wait } (ref :: port :: command :: rest)).trace = 1 ∧
    (RunE { env with wait := wait } (ref :: port :: command :: rest)).stopChannel
      = some .closed := by
  have h2 : ({ env with wait := wait } : Collaborators).resolved = true := h
  rw [RunE_tunnel_ready _ ref port command rest localPort h2 hf]
  simp only [hs, hsel]
  refine ⟨trivial, ⟨[Event.forwardPorts ["localhost".toList] [':' :: port],
    Event.start command (replacePort rest localPort), Event.goWait, Event.signalNotify],
    by simp, by simp, by simp⟩, by simp [stopCalls], trivial⟩

/-- Witness of C4: an interrupt while `sleep 600` runs, which would have ended
with an error. -/
theorem C4_interrupt_stops_both_and_succeeds_witness :
    (RunE (happyRun 37541 (some (.collaborator "signal: interrupt".toList)) (some .signals))
      ["pod/web".toList, "80".toList, "sleep".toList, "600".toList]).outcome = .returned none :=
  (C4_interrupt_stops_both_and_succeeds (happyRun 37541 none (some .signals))
    "pod/web".toList "80".toList "sleep".toList ["600".toList] 37541
    (some (.collaborator "signal: interrupt".toList)) (by decide) rfl rfl rfl).1

/-- C5: when the tunnel is established, the child process is started and it
ends before any interrupt, `RunE` returns exactly what `c.Wait()` delivered:
nil for nil, the same error otherwise. -/
theorem C5_completion_passes_outcome_through (env : Collaborators)
    (ref port command : GoString) (rest : List GoString) (localPort : Nat)
    (h : env.resolved = true) (hf : env.forwardPorts = .ok localPort)
    (hs : env.start = none) (hsel : env.selected = some .cmdRes) :
    (RunE env (ref :: port :: command :: rest)).outcome = .returned env.wait := by
  rw [RunE_tunnel_ready env ref port command rest localPort h hf]
  simp only [hs, hsel]

/-- Witness of C5: the child process ends with an error, which is returned
as it is. -/
theorem C5_completion_passes_outcome_through_witness :
    (RunE (happyRun 37541 (some (.collaborator "exit status 22".toList)) (some .cmdRes))
      ["pod/web".toList, "80".toList, "curl".toList, "localhost:\x7b\x7d".toList]).outcome
      = .returned (some (.collaborator "exit status 22".toList)) :=
  C5_completion_passes_outcome_through
    (happyRun 37541 (some (.collaborator "exit status 22".toList)) (some .cmdRes))
    "pod/web".toList "80".toList "curl".toList ["localhost:\x7b\x7d".toList] 37541
    (by decide) rfl rfl rfl

/-- C6: when `ForwardPorts` returns an error, `c.Start()` is called zero
times, whatever the arguments and the other collaborators; and when the calls
before `ForwardPorts` succeeded, `RunE` returns the usage error built from the
tunnel error, its only effect being the call of `ForwardPorts`. -/
theorem C6_tunnel_failure_starts_nothing (env : Collaborators) (args : List GoString)
    (err : GoError) (hf : env.forwardPorts = .error err) :
    startCalls (RunE env args).trace = [] ∧
    (env.resolved = true → ∀ (ref port command : GoString) (rest : List GoString),
      args = ref :: port :: command :: rest →
      (RunE env args).outcome = .returned (some (UsageErrorf err)) ∧
      (RunE env args).trace = [Event.forwardPorts ["localhost".toList] [':' :: port]]) := by
  refine ⟨RunE_no_start_of_tunnel_error env args err hf, ?_⟩
  intro h ref port command rest hargs
  rw [hargs, RunE_tunnel_failed env ref port command rest err h hf]
  exact ⟨rfl, rfl⟩

/-- Witness of C6: the tunnel cannot bind, nothing is started. -/
theorem C6_tunnel_failure_starts_nothing_witness :
    startCalls (RunE { happyRun 0 none none with
        forwardPorts := .error (.collaborator "unable to listen".toList) }
      ["pod/web".toList, "80".toList, "curl".toList, "localhost:\x7b\x7d".toList]).trace = [] :=
  (C6_tunnel_failure_starts_nothing { happyRun 0 none none with
      forwardPorts := .error (.collaborator "unable to listen".toList) }
    ["pod/web".toList, "80".toList, "curl".toList, "localhost:\x7b\x7d".toList]
    (.collaborator "unable to listen".toList) rfl).1

/-- C7 as stated fails: with local port 8080 and the command word `run-` followed
by the placeholder, the child process is not started under the expanded
command word. -/
theorem C7_command_word_is_not_expanded :
    ¬ (startCalls (RunE (happyRun 8080 none (some .cmdRes))
        ["pod/web".toList, "80".toList, "run-\x7b\x7d".toList, "\x7b\x7d".toList]).trace
      = [(ReplaceAll "run-\x7b\x7d".toList token (Itoa 8080),
          replacePort ["\x7b\x7d".toList] 8080)]) := by
  decide

/-- C7 amended: for every invocation with at least three positional arguments
that reaches the tunnel and every local port below 65536 it is given, the
child process is started exactly once, under the command word `args[2]` as it
was typed and with `args[3:]` in which each occurrence of the placeholder is
replaced by the decimal text of the local port. -/
theorem C7_arguments_after_command_are_expanded (env : Collaborators)
    (ref port command : GoString) (rest : List GoString) (localPort : Nat)
    (h : env.resolved = true) (hf : env.forwardPorts = .ok localPort)
    (hp : localPort < 65536) :
    startCalls (RunE env (ref :: port :: command :: rest)).trace
      = [(command, replacePort rest localPort)] ∧
    (replacePort rest localPort).length = rest.length ∧
    IsDecimalOf (Itoa (Int.ofNat localPort)) localPort ∧
    (∀ (i : Nat) (v : GoString), rest[i]? = some v →
      ∃ out, (replacePort rest localPort)[i]? = some out ∧
        IsExpansion (Itoa (Int.ofNat localPort)) v out) := by
  refine ⟨?_, by simp [replacePort], Itoa_port localPort hp, ?_⟩
  · rw [RunE_tunnel_ready env ref port command rest localPort h hf]
    rcases env.start with _ | err
    · rcases env.selected with _ | c
      · simp [startCalls]
      · cases c <;> simp [startCalls]
    · simp [startCalls]
  · intro i v hv
    refine ⟨ReplaceAll v token (Itoa (Int.ofNat localPort)), by simp [replacePort, hv], ?_⟩
    rw [isExpansion_iff, ReplaceAll_token]

/-- Witness of C7 amended, at the input of the counterexample. -/
theorem C7_arguments_after_command_are_expanded_witness :
    startCalls (RunE (happyRun 8080 none (some .cmdRes))
      ["pod/web".toList, "80".toList, "run-\x7b\x7d".toList, "\x7b\x7d".toList]).trace
      = [("run-\x7b\x7d".toList, replacePort ["\x7b\x7d".toList] 8080)] :=
  (C7_arguments_after_command_are_expanded (happyRun 8080 none (some .cmdRes))
    "pod/web".toList "80".toList "run-\x7b\x7d".toList ["\x7b\x7d".toList] 8080
    (by decide) rfl (by decide)).1

/-- C8 as stated fails: the stop control is `close(o.StopChannel)`, and
closing the channel a second time panics. -/
theorem C8_second_close_panics :
    (closeChan ChanState.unclosed >>= closeChan) = Except.error GoPanic.closeOfClosedChannel ∧
    closeChan ChanState.unclosed = Except.ok ChanState.closed :=
  ⟨rfl, rfl⟩

/-- C8 amended: on every path of `RunE` the stop control `close(o.StopChannel)`
runs at most once, so it never runs on a closed channel and never panics, and
the channel is closed at the end exactly when it ran. -/
theorem C8_stop_control_runs_at_most_once (env : Collaborators) (args : List GoString) :
    stopCalls (RunE env args).trace ≤ 1 ∧
    (RunE env args).outcome ≠ .panicked .closeOfClosedChannel ∧
    ((RunE env args).stopChannel = some .closed ↔ stopCalls (RunE env args).trace = 1) :=
  RunE_stop_at_most_once env args

/-- C9: for every port, `replacePort` leaves every element without the
placeholder as it is, and a sequence in which no element has the placeholder
comes back equal to the input; so does the sequence of two such arguments
under port 8080. -/
theorem C9_elements_without_token_unchanged (s : List GoString) (port : Nat) :
    (∀ (i : Nat) (v : GoString), s[i]? = some v → ¬ HasToken v →
      (replacePort s port)[i]? = some v) ∧
    ((∀ v ∈ s, ¬ HasToken v) → replacePort s port = s) ∧
    replacePort ["-sS".toList, "\x7d\x7b".toList] 8080 = ["-sS".toList, "\x7d\x7b".toList] := by
  refine ⟨?_, ?_, by decide⟩
  · intro i v hv hfree
    simp [replacePort, hv, ReplaceAll_token, replaceScan_of_not_hasToken _ v hfree]
  · intro hfree
    unfold replacePort
    conv_rhs => rw [← List.map_id s]
    apply List.map_congr_left
    intro v hv
    rw [ReplaceAll_token, replaceScan_of_not_hasToken _ v (hfree v hv)]
    rfl

/-- C10: for every argument sequence and every port below 65536, no element of
the result of `replacePort` contains the placeholder, and `replacePort` with
any port on that result gives it back unchanged; nested and adjacent braces
are covered, as the two examples show. -/
theorem C10_no_token_left_and_idempotent (s : List GoString) (port : Nat)
    (h : port < 65536) :
    (∀ v ∈ replacePort s port, ¬ HasToken v) ∧
    (∀ q : Nat, replacePort (replacePort s port) q = replacePort s port) ∧
    replacePort ["\x7b\x7b\x7d\x7d".toList, "\x7b\x7d\x7b\x7d".toList] 8080
      = ["\x7b8080\x7d".toList, "80808080".toList] := by
  have hfree : ∀ v ∈ replacePort s port, ¬ HasToken v := by
    intro v hv
    simp only [replacePort, List.mem_map] at hv
    obtain ⟨u, _, rfl⟩ := hv
    rw [ReplaceAll_token]
    exact not_hasToken_replaceScan _ (Itoa_port_allDigits port h).1
      (Itoa_port_allDigits port h).2 u
  refine ⟨hfree, ?_, by decide⟩
  intro q
  conv_rhs => rw [← List.map_id (replacePort s port)]
  conv_lhs => unfold replacePort
  apply List.map_congr_left
  intro v hv
  rw [ReplaceAll_token, replaceScan_of_not_hasToken _ v (hfree v hv)]
  rfl

/-- Witness of C10: nested and adjacent braces under port 0. -/
theorem C10_no_token_left_and_idempotent_witness :
    0 < 65536 ∧
    replacePort (replacePort
        ["\x7b\x7b\x7d\x7d".toList, "\x7b\x7d\x7b\x7d".toList] 0) 443
      = replacePort ["\x7b\x7b\x7d\x7d".toList, "\x7b\x7d\x7b\x7d".toList] 0 :=
  ⟨by decide,
    (C10_no_token_left_and_idempotent
      ["\x7b\x7b\x7d\x7d".toList, "\x7b\x7d\x7b\x7d".toList] 0 (by decide)).2.1 443⟩

end PortForwardRun
